import Mathlib

/-
  Verification of the mr-research-backend workflow engine.

  Shallow embedding of the repository sources:
    src/app/state.py   -> AgentState (TypedDict keys become Option-valued
                          fields; a value of none models an absent key, so a
                          Python subscript read of an absent key, which raises
                          KeyError, is modelled by a step returning none)
    src/app/agents.py  -> generate_research_plan, retrieve_info and its loop,
                          summarize_info, fact_check_summary,
                          generate_final_answer, answer_follow_up_question,
                          route_initial_or_follow_up
    src/app/graph.py   -> Node, nextNode, interruptBefore, runChain
    src/main.py        -> initialInputState, chat_endpoint_events,
                          update_state, chat_continue_endpoint

  External collaborators (the LLM and the search provider) are modelled as
  oracle functions passed in as parameters; a search call that raises is an
  oracle answer of none, matching the try/except in retrieve_info.
-/

namespace MrResearch

/-- The six ASCII whitespace characters of Python str.strip and of the
    regex blank-character class, sufficient for the ASCII text involved. -/
def isPySpace (c : Char) : Bool :=
  c = ' ' || c = '\t' || c = '\n' || c = '\r' || c = '\x0b' || c = '\x0c'

/-- Remove leading and trailing whitespace, as Python str.strip does. -/
def stripList (l : List Char) : List Char :=
  ((l.dropWhile isPySpace).reverse.dropWhile isPySpace).reverse

/-- Whether pat occurs at the head of the second list. -/
def headMatches : List Char → List Char → Bool
  | [], _ => true
  | _ :: _, [] => false
  | a :: as, b :: bs => a = b && headMatches as bs

/-- Substring containment, as the Python operator `in` on strings. -/
def hasSubstr (pat : List Char) : List Char → Bool
  | [] => headMatches pat []
  | c :: rest => headMatches pat (c :: rest) || hasSubstr pat rest

/-- ASCII lowercasing, as Python str.lower on the ASCII queries involved. -/
def pyLower (s : String) : String :=
  String.mk (s.data.map Char.toLower)

/-- Split a character list at newline characters, keeping empty segments,
    as String.splitOn with a newline separator would. -/
def splitLines : List Char → List (List Char)
  | [] => [[]]
  | c :: rest =>
    if c = '\n' then [] :: splitLines rest
    else
      match splitLines rest with
      | [] => [[c]]
      | l :: ls => (c :: l) :: ls

/-- Join strings with a separator, as the Python str.join method. -/
def joinSep (sep : String) : List String → String
  | [] => ""
  | [x] => x
  | x :: y :: rest => x ++ sep ++ joinSep sep (y :: rest)

/-- One item of a search collaborator response: every field may be missing. -/
structure SearchItem where
  url : Option String
  content : Option String
  snippet : Option String
deriving Repr, DecidableEq

/-- One stored research result, the dict with source and content keys built
    in retrieve_info. -/
structure ResearchResult where
  source : String
  content : String
deriving Repr, DecidableEq

/-- AgentState from src/app/state.py. The TypedDict is used as a partial
    dict by the graph runtime, so every field is Option-valued: none models
    a key that has never been written. The messages field and the two
    final-chain fields carry runtime objects; the bound chain inputs are
    modelled on the node deltas (Delta.final_inputs), the rest is read by
    no step or claim. -/
structure AgentState where
  thread_id : Option String := none
  query : Option String := none
  original_query : Option String := none
  research_plan : Option String := none
  raw_research_results : Option (List ResearchResult) := none
  summary : Option String := none
  fact_check_results : Option String := none
deriving Repr, DecidableEq

/-- Python truthiness of an optional string: present and non-empty. -/
def pyTruthyStr (o : Option String) : Bool :=
  match o with
  | some s => !(s == "")
  | none => false

/-- The graph nodes of src/app/graph.py. -/
inductive Node
  | generate_research_plan
  | retrieve_info
  | summarize_info
  | fact_check_summary
  | generate_final_answer
  | answer_follow_up_question
deriving Repr, DecidableEq

/-- The token test of the router: the lowercased query contains both the
    change token and the plan token. -/
def queryHasChangePlan (q : String) : Bool :=
  hasSubstr "change".data (pyLower q).data && hasSubstr "plan".data (pyLower q).data

/-- route_initial_or_follow_up from src/app/agents.py: the conditional entry
    point of the graph. -/
def route_initial_or_follow_up (state : AgentState) : Node :=
  let user_query := pyLower ((state.query).getD "")
  if hasSubstr "change".data user_query.data && hasSubstr "plan".data user_query.data then
    Node.generate_research_plan
  else if pyTruthyStr state.summary then
    Node.answer_follow_up_question
  else
    Node.generate_research_plan

/-- The multiline regex scan of retrieve_info over the plan, one recursion
    step per line. The pattern anchors each attempt at a line start, skips
    blanks, requires digits and a dot, skips blanks again and captures the
    rest of the line. Both blank runs match newlines, so they cross line
    boundaries: an attempt whose line is all blank continues on the next
    line, a failed attempt resumes at the next line (the blank, digit and
    dot classes are disjoint, so the greedy runs never backtrack and the
    failing character sits on the attempted line, with no anchor before the
    newline that follows it), and a marker followed only by blanks to the
    end of its line captures the text of the next non-blank line. The
    capturing flag records that a marker was consumed and its capture is
    still pending on a later line; at the end of input a pending capture is
    the empty string, since the capture group also matches nothing. -/
def scanPlanLines : Bool → List (List Char) → List String
  | true, [] => [""]
  | false, [] => []
  | true, line :: rest =>
    let w := line.dropWhile isPySpace
    if w.isEmpty then scanPlanLines true rest
    else String.mk w :: scanPlanLines false rest
  | false, line :: rest =>
    let t := line.dropWhile isPySpace
    let ds := t.takeWhile Char.isDigit
    match t.dropWhile Char.isDigit with
    | '.' :: v =>
      if ds.isEmpty then scanPlanLines false rest
      else
        let w := v.dropWhile isPySpace
        if w.isEmpty then scanPlanLines true rest
        else String.mk w :: scanPlanLines false rest
    | _ => scanPlanLines false rest

/-- The ordered captures of the numbered-item pattern over the whole plan,
    as the findall call of retrieve_info computes them. -/
def findallNumbered (research_plan : String) : List String :=
  scanPlanLines false (splitLines research_plan.data)

/-- The sub-query list of retrieve_info: the ordered captures of the
    numbered-item pattern, or the whole plan when the pattern nowhere
    matches. -/
def splitSearchQueries (research_plan : String) : List String :=
  let qs := findallNumbered research_plan
  if qs.isEmpty then [research_plan] else qs

/-- The line-local reading of the split that the spec words describe:
    match every line of the plan separately against the numbered-list form
    and keep the ordered captures. Written from the spec sentence, not from
    the source, to be compared against the program's multiline regex, whose
    blank runs cross line boundaries. -/
def specNumberedLine (line : List Char) : Option String :=
  let s := line.dropWhile isPySpace
  match s.takeWhile Char.isDigit, s.dropWhile Char.isDigit with
  | [], _ => none
  | _ :: _, '.' :: rest => some (String.mk (rest.dropWhile isPySpace))
  | _ :: _, _ => none

/-- The line-local reading of the whole split, with the same whole-plan
    fallback; written from the spec sentence for comparison only. -/
def specSplitByNumberedLines (research_plan : String) : List String :=
  let qs := (splitLines research_plan.data).filterMap specNumberedLine
  if qs.isEmpty then [research_plan] else qs

/-- The value of the Python expression that prefers the content field and
    falls back to the snippet field when content is missing or empty. -/
def effectiveContent (item : SearchItem) : Option String :=
  match item.content with
  | some c => if c == "" then item.snippet else some c
  | none => item.snippet

/-- The inner loop body of retrieve_info over the items of one search
    response: processed is the set of seen source urls, acc the accumulated
    results, both extended exactly when the item has a truthy url not yet
    seen and a truthy content. -/
def processItems : List String → List ResearchResult → List SearchItem →
    List String × List ResearchResult
  | processed, acc, [] => (processed, acc)
  | processed, acc, item :: rest =>
    match item.url, effectiveContent item with
    | some u, some c =>
      if !(u == "") && !(processed.contains u) && !(c == "") then
        processItems (processed ++ [u]) (acc ++ [⟨u, c⟩]) rest
      else
        processItems processed acc rest
    | _, _ => processItems processed acc rest

/-- The outer loop of retrieve_info over the sub-queries. A search oracle
    answer of none is a raised exception: the loop logs and continues. The
    third component records the queries sent to the search collaborator. -/
def retrieveLoop (search : String → Option (List SearchItem)) :
    List String → List String → List ResearchResult → List String →
    List String × List ResearchResult × List String
  | [], processed, acc, log => (processed, acc, log)
  | q :: qs, processed, acc, log =>
    match search q with
    | none => retrieveLoop search qs processed acc (log ++ [q])
    | some items =>
      let pa := processItems processed acc items
      retrieveLoop search qs pa.1 pa.2 (log ++ [q])

/-- retrieve_info from src/app/agents.py: the list of deduplicated results
    accumulated over all sub-queries of the research plan. -/
def retrieve_info (search : String → Option (List SearchItem))
    (state : AgentState) : List ResearchResult :=
  (retrieveLoop search (splitSearchQueries ((state.research_plan).getD "")) [] [] []).2.1

/-- The queries retrieve_info sends to the search collaborator, in order. -/
def retrieve_calls (search : String → Option (List SearchItem))
    (state : AgentState) : List String :=
  (retrieveLoop search (splitSearchQueries ((state.research_plan).getD "")) [] [] []).2.2

/-- A search item that passes the validity test of the loop: a present
    non-empty url and a present non-empty effective content. -/
def validEntry (item : SearchItem) : Option ResearchResult :=
  match item.url, effectiveContent item with
  | some u, some c => if !(u == "") && !(c == "") then some ⟨u, c⟩ else none
  | _, _ => none

/-- Keep the first occurrence of every source, dropping any entry whose
    source is already in seen or appeared earlier in the list. -/
def dedupFirst (seen : List String) : List ResearchResult → List ResearchResult
  | [] => []
  | r :: rs =>
    if seen.contains r.source then dedupFirst seen rs
    else r :: dedupFirst (seen ++ [r.source]) rs

/-- The stream of valid candidate results produced by the searches of the
    given sub-queries, in arrival order, before deduplication. -/
def candidateResults (search : String → Option (List SearchItem))
    (qs : List String) : List ResearchResult :=
  qs.flatMap (fun q =>
    match search q with
    | none => []
    | some items => items.filterMap validEntry)

/-- Format one result as retrieve results are rendered for the prompts. -/
def formatEntry (r : ResearchResult) : String :=
  "Source: " ++ r.source ++ "\nContent: " ++ r.content

/-- The joined context block built from the raw results. -/
def formatResults (raw : List ResearchResult) : String :=
  joinSep "\n\n" (raw.map formatEntry)

/-- summarize_info from src/app/agents.py. The oracle stands for the LLM
    chain invocation on the query and the formatted results; the boolean
    records whether the oracle was consulted. A result of none models the
    KeyError raised when the query key is absent. -/
def summarize_info (llm : String → String → String)
    (state : AgentState) : Option (String × Bool) :=
  match state.query with
  | none => none
  | some query =>
    let raw_results := (state.raw_research_results).getD []
    let formatted_results := formatResults raw_results
    if (stripList formatted_results.data).isEmpty then
      some ("No substantial research results were found to summarize.", false)
    else
      some (llm query formatted_results, true)

/-- fact_check_summary from src/app/agents.py, with the same oracle and
    KeyError conventions as summarize_info. -/
def fact_check_summary (llm : String → String → String → String)
    (state : AgentState) : Option (String × Bool) :=
  match state.query with
  | none => none
  | some query =>
    let summary := (state.summary).getD ""
    let raw_results := (state.raw_research_results).getD []
    if raw_results.isEmpty then
      some ("Fact-check skipped: No original research results.", false)
    else
      some (llm query summary (formatResults raw_results), true)

/-- The bound inputs of the deferred follow-up answer chain. -/
structure FollowUpInputs where
  summary : String
  fact_check_results : String
  formatted_results : String
  follow_up_query : String
deriving Repr, DecidableEq

/-- answer_follow_up_question from src/app/agents.py: total in the state,
    every read uses a dict get with a default. Returns the bound inputs of
    the deferred render chain. -/
def answer_follow_up_question (state : AgentState) : FollowUpInputs :=
  let summary := (state.summary).getD "No previous summary available."
  let fact_check_results := (state.fact_check_results).getD "No fact-check was performed."
  let raw_results := (state.raw_research_results).getD []
  let formatted0 := formatResults raw_results
  let formatted_results :=
    if (stripList formatted0.data).isEmpty then "No sources were retrieved." else formatted0
  let follow_up_query := (state.query).getD ""
  ⟨summary, fact_check_results, formatted_results, follow_up_query⟩

/-- The bound inputs of a deferred final-render chain: either the research
    pipeline terminal step or the follow-up step built it. -/
inductive FinalInputs
  | research (query summary fact_check_results : String)
  | followUp (fi : FollowUpInputs)
deriving Repr, DecidableEq

/-- A partial state update as returned by one node: only the keys present
    in the returned dict. -/
structure Delta where
  research_plan : Option String := none
  raw_research_results : Option (List ResearchResult) := none
  summary : Option String := none
  fact_check_results : Option String := none
  final_inputs : Option FinalInputs := none
deriving Repr, DecidableEq

/-- generate_research_plan from src/app/agents.py: reads original_query by
    subscript, so an absent key raises (none); otherwise the oracle stands
    for the planning chain invocation. -/
def generate_research_plan (planLLM : String → String)
    (state : AgentState) : Option Delta :=
  match state.original_query with
  | none => none
  | some query => some { research_plan := some (planLLM query) }

/-- generate_final_answer from src/app/agents.py: reads summary,
    fact_check_results and query by subscript, so any absent key raises;
    otherwise packages the bound inputs of the deferred final chain. -/
def generate_final_answer (state : AgentState) : Option Delta :=
  match state.summary, state.fact_check_results, state.query with
  | some su, some fc, some q => some { final_inputs := some (FinalInputs.research q su fc) }
  | _, _, _ => none

/-- The external collaborators of the pipeline, as oracles. -/
structure Oracles where
  planLLM : String → String
  search : String → Option (List SearchItem)
  summarizeLLM : String → String → String
  factCheckLLM : String → String → String → String

/-- Merge a node delta into the authoritative snapshot: present delta keys
    overwrite, absent keys leave the snapshot field untouched. -/
def applyDelta (s : AgentState) (d : Delta) : AgentState :=
  { s with
    research_plan := match d.research_plan with
      | some v => some v
      | none => s.research_plan
    raw_research_results := match d.raw_research_results with
      | some v => some v
      | none => s.raw_research_results
    summary := match d.summary with
      | some v => some v
      | none => s.summary
    fact_check_results := match d.fact_check_results with
      | some v => some v
      | none => s.fact_check_results }

/-- The fixed edges of src/app/graph.py; none is the END sentinel. -/
def nextNode : Node → Option Node
  | Node.generate_research_plan => some Node.retrieve_info
  | Node.retrieve_info => some Node.summarize_info
  | Node.summarize_info => some Node.fact_check_summary
  | Node.fact_check_summary => some Node.generate_final_answer
  | Node.generate_final_answer => none
  | Node.answer_follow_up_question => none

/-- The interrupt set passed to compile: execution suspends before this
    node runs. -/
def interruptBefore : Node → Bool
  | Node.retrieve_info => true
  | _ => false

/-- Execute one node on the current snapshot; none is a raised exception. -/
def runStep (o : Oracles) (n : Node) (s : AgentState) : Option Delta :=
  match n with
  | Node.generate_research_plan => generate_research_plan o.planLLM s
  | Node.retrieve_info =>
    some { raw_research_results := some (retrieve_info o.search s) }
  | Node.summarize_info =>
    (summarize_info o.summarizeLLM s).map (fun r => { summary := some r.1 })
  | Node.fact_check_summary =>
    (fact_check_summary o.factCheckLLM s).map (fun r => { fact_check_results := some r.1 })
  | Node.generate_final_answer => generate_final_answer s
  | Node.answer_follow_up_question =>
    some { final_inputs := some (FinalInputs.followUp (answer_follow_up_question s)) }

/-- Outcome of driving the graph from some node: the final snapshot and the
    ordered per-node outputs, ending at END, at the interrupt boundary with
    the named node pending, or at a raised exception. -/
inductive RunResult
  | finished (s : AgentState) (outputs : List (Node × Delta))
  | interrupted (s : AgentState) (outputs : List (Node × Delta)) (pending : Node)
  | errored (outputs : List (Node × Delta))
deriving Repr, DecidableEq

/-- A strictly decreasing measure along the fixed edges. -/
def nodeRank : Node → Nat
  | Node.generate_research_plan => 5
  | Node.retrieve_info => 4
  | Node.summarize_info => 3
  | Node.fact_check_summary => 2
  | Node.generate_final_answer => 1
  | Node.answer_follow_up_question => 1

/-- Drive the graph from node n: run n, merge its delta, then follow the
    fixed edge, halting when END is reached, when the successor is in the
    interrupt set, or when a step raises. Snapshots are checkpointed after
    every completed node, so the carried state is the persisted one. -/
def runChain (o : Oracles) (n : Node) (s : AgentState) : RunResult :=
  match runStep o n s with
  | none => RunResult.errored []
  | some d =>
    let s2 := applyDelta s d
    match h : nextNode n with
    | none => RunResult.finished s2 [(n, d)]
    | some m =>
      if interruptBefore m then RunResult.interrupted s2 [(n, d)] m
      else
        match runChain o m s2 with
        | RunResult.finished sf outs => RunResult.finished sf ((n, d) :: outs)
        | RunResult.interrupted sf outs p => RunResult.interrupted sf ((n, d) :: outs) p
        | RunResult.errored outs => RunResult.errored ((n, d) :: outs)
termination_by nodeRank n
decreasing_by cases n <;> cases h <;> decide

/-- The events of the server-sent stream of src/main.py. -/
inductive Event
  | thread_id (tid : String)
  | research_plan (plan : String)
  | raw_research_results (rs : List ResearchResult)
  | summary (s : String)
  | fact_check_results (s : String)
  | final_answer_start
  | final_answer_chunk (c : String)
  | done
  | error
deriving Repr, DecidableEq

/-- The full initial state the /chat endpoint submits for a conversation
    without a thread id. The original_query key is not among the
    initialized fields. -/
def initialInputState (thread_id query : String) : AgentState :=
  { thread_id := some thread_id
    query := some query
    original_query := none
    research_plan := some ""
    raw_research_results := some []
    summary := some ""
    fact_check_results := some "" }

/-- The awaiting-approval test of the /chat stream on one node output: the
    research_plan key is present and truthy. -/
def planEventOf (d : Delta) : Option String :=
  match d.research_plan with
  | some p => if p == "" then none else some p
  | none => none

/-- The final-answer events the /chat stream emits for one node output. -/
def finalEventsOf (streamLLM : FinalInputs → List String) (d : Delta) : List Event :=
  match d.final_inputs with
  | some fi => Event.final_answer_start :: (streamLLM fi).map Event.final_answer_chunk
  | none => []

/-- Walk the node outputs as the /chat stream loop does; the boolean
    records the early return taken right after an awaiting-approval
    event. -/
def emitChatOutputs (streamLLM : FinalInputs → List String) :
    List (Node × Delta) → List Event × Bool
  | [] => ([], false)
  | (_, d) :: rest =>
    match planEventOf d with
    | some p => ([Event.research_plan p], true)
    | none =>
      let tail := emitChatOutputs streamLLM rest
      (finalEventsOf streamLLM d ++ tail.1, tail.2)

/-- The event sequence of one /chat turn: the thread id first, then the
    translated node outputs of the routed run; done closes a stream that
    ran out of outputs, error closes a stream whose run raised, and an
    early return after the awaiting-approval event closes without either. -/
def chat_endpoint_events (o : Oracles) (streamLLM : FinalInputs → List String)
    (tid : String) (s0 : AgentState) : List Event :=
  Event.thread_id tid ::
    (match runChain o (route_initial_or_follow_up s0) s0 with
     | RunResult.finished _ outs =>
       let e := emitChatOutputs streamLLM outs
       if e.2 then e.1 else e.1 ++ [Event.done]
     | RunResult.interrupted _ outs _ =>
       let e := emitChatOutputs streamLLM outs
       if e.2 then e.1 else e.1 ++ [Event.done]
     | RunResult.errored outs =>
       let e := emitChatOutputs streamLLM outs
       if e.2 then e.1 else e.1 ++ [Event.error])

/-- A persisted conversation snapshot: the latest state, and the node
    before which execution is suspended when an interrupt is pending. -/
structure Checkpoint where
  state : AgentState
  pendingNode : Option Node
deriving Repr, DecidableEq

/-- The update_state call of the /chat/continue endpoint: load the
    checkpoint of the thread (a fresh empty one when absent) and overwrite
    its research_plan, touching nothing else and checking nothing. -/
def update_state (store : String → Option Checkpoint) (tid plan : String) :
    String → Option Checkpoint :=
  fun t =>
    if t = tid then
      match store tid with
      | some cp => some { cp with state := { cp.state with research_plan := some plan } }
      | none => some { state := { research_plan := some plan }, pendingNode := none }
    else store t

/-- Outcome of the /chat/continue request handling up to the resumption:
    either the 400 rejection of a missing or empty field, or the stream
    started on the store produced by the unconditional plan overwrite. -/
inductive ContinueOutcome
  | badRequest
  | resumed (store : String → Option Checkpoint)

/-- The /chat/continue endpoint of src/main.py: reject a missing or falsy
    thread_id or research_plan with a 400, otherwise overwrite the
    persisted plan and resume. No pending-interrupt check is made. -/
def chat_continue_endpoint (store : String → Option Checkpoint)
    (thread_id research_plan : Option String) : ContinueOutcome :=
  match thread_id, research_plan with
  | some tid, some plan =>
    if tid == "" || plan == "" then ContinueOutcome.badRequest
    else ContinueOutcome.resumed (update_state store tid plan)
  | _, _ => ContinueOutcome.badRequest

/-- A concrete checkpoint store holding one completed conversation T1 with
    no pending interrupt. -/
def noResumeStore : String → Option Checkpoint := fun t =>
  if t = "T1" then
    some { state := { summary := some "done", research_plan := some "old plan" }
           pendingNode := none }
  else none

/-- Concrete collaborator oracles for closed evaluations. -/
def trivialOracles : Oracles :=
  { planLLM := fun _ => "1. step one"
    search := fun _ => none
    summarizeLLM := fun _ _ => "summary text"
    factCheckLLM := fun _ _ _ => "fact check text" }

/-- A streaming oracle producing no chunks. -/
def noStream : FinalInputs → List String := fun _ => []

/-! ## Helper lemmas about the retrieve loop -/

theorem contains_iff_mem (l : List String) (a : String) : l.contains a = true ↔ a ∈ l := by
  simp [List.contains]

theorem processItems_spec (items : List SearchItem) :
    ∀ processed acc, processItems processed acc items =
      (processed ++ (dedupFirst processed (items.filterMap validEntry)).map (fun r => r.source),
       acc ++ dedupFirst processed (items.filterMap validEntry)) := by
  induction items with
  | nil => intro processed acc; simp [processItems, dedupFirst]
  | cons item rest ih =>
    intro processed acc
    simp only [processItems, List.filterMap_cons]
    cases hu : item.url with
    | none => simp [validEntry, hu, ih]
    | some u =>
      cases hc : effectiveContent item with
      | none => simp [validEntry, hu, hc, ih]
      | some c =>
        by_cases hue : u = ""
        · simp [validEntry, hu, hc, hue, ih]
        · by_cases hce : c = ""
          · simp [validEntry, hu, hc, hue, hce, ih]
          · by_cases hpc : u ∈ processed
            · simp [validEntry, hu, hc, hue, hce, hpc, ih, dedupFirst]
            · simp [validEntry, hu, hc, hue, hce, hpc, ih, dedupFirst]

theorem dedupFirst_append (xs ys : List ResearchResult) :
    ∀ seen, dedupFirst seen (xs ++ ys) =
      dedupFirst seen xs ++
        dedupFirst (seen ++ (dedupFirst seen xs).map (fun r => r.source)) ys := by
  induction xs with
  | nil => intro seen; simp [dedupFirst]
  | cons x xs ih =>
    intro seen
    by_cases h : x.source ∈ seen
    · simp [dedupFirst, h, ih]
    · simp [dedupFirst, h, ih, List.append_assoc]

theorem retrieveLoop_spec (search : String → Option (List SearchItem)) (qs : List String) :
    ∀ processed acc log, retrieveLoop search qs processed acc log =
      (processed ++ (dedupFirst processed (candidateResults search qs)).map (fun r => r.source),
       acc ++ dedupFirst processed (candidateResults search qs),
       log ++ qs) := by
  induction qs with
  | nil => intro processed acc log; simp [retrieveLoop, candidateResults, dedupFirst]
  | cons q qs ih =>
    intro processed acc log
    simp only [retrieveLoop, candidateResults, List.flatMap_cons]
    cases hs : search q with
    | none =>
      simp only [hs, ih]
      simp [candidateResults]
    | some items =>
      simp only [hs, processItems_spec, ih]
      rw [dedupFirst_append]
      simp [candidateResults, List.append_assoc]

theorem dedupFirst_sources_fresh_nodup (l : List ResearchResult) :
    ∀ seen, (∀ r ∈ dedupFirst seen l, r.source ∉ seen) ∧
      ((dedupFirst seen l).map (fun r => r.source)).Nodup := by
  induction l with
  | nil => intro seen; simp [dedupFirst]
  | cons x l ih =>
    intro seen
    by_cases h : x.source ∈ seen
    · simpa [dedupFirst, h] using ih seen
    · have hd : dedupFirst seen (x :: l) = x :: dedupFirst (seen ++ [x.source]) l := by
        simp [dedupFirst, h]
      constructor
      · intro r hr
        rw [hd] at hr
        rcases List.mem_cons.mp hr with rfl | hr
        · exact h
        · intro hin
          exact (ih (seen ++ [x.source])).1 r hr (by simp [hin])
      · rw [hd]
        simp only [List.map_cons, List.nodup_cons]
        refine ⟨?_, (ih (seen ++ [x.source])).2⟩
        intro hin
        rcases List.mem_map.mp hin with ⟨r, hr, hsrc⟩
        exact (ih (seen ++ [x.source])).1 r hr (by simp [hsrc])

theorem mem_of_mem_dedupFirst (l : List ResearchResult) :
    ∀ seen r, r ∈ dedupFirst seen l → r ∈ l := by
  induction l with
  | nil => intro seen r hr; simp [dedupFirst] at hr
  | cons x l ih =>
    intro seen r hr
    by_cases h : x.source ∈ seen
    · rw [show dedupFirst seen (x :: l) = dedupFirst seen l by simp [dedupFirst, h]] at hr
      exact List.mem_cons_of_mem x (ih seen r hr)
    · rw [show dedupFirst seen (x :: l) = x :: dedupFirst (seen ++ [x.source]) l by
        simp [dedupFirst, h]] at hr
      rcases List.mem_cons.mp hr with rfl | hr
      · exact List.mem_cons_self r l
      · exact List.mem_cons_of_mem x (ih (seen ++ [x.source]) r hr)

theorem validEntry_fields (item : SearchItem) (r : ResearchResult)
    (h : validEntry item = some r) : r.source ≠ "" ∧ r.content ≠ "" := by
  unfold validEntry at h
  cases hu : item.url with
  | none => rw [hu] at h; exact absurd h (by simp)
  | some u =>
    cases hc : effectiveContent item with
    | none => rw [hu, hc] at h; exact absurd h (by simp)
    | some c =>
      rw [hu, hc] at h
      by_cases hue : u = ""
      · simp [hue] at h
      · by_cases hce : c = ""
        · simp [hue, hce] at h
        · simp only [hue, hce, if_pos, beq_iff_eq, Bool.not_eq_true] at h
          have : some (ResearchResult.mk u c) = some r := by
            simpa [show (u == "") = false by simp [hue],
                   show (c == "") = false by simp [hce]] using h
          cases this
          exact ⟨hue, hce⟩

theorem mem_candidateResults_fields (search : String → Option (List SearchItem))
    (qs : List String) (r : ResearchResult) (h : r ∈ candidateResults search qs) :
    r.source ≠ "" ∧ r.content ≠ "" := by
  rcases List.mem_flatMap.mp h with ⟨q, _, hr⟩
  cases hs : search q with
  | none => rw [hs] at hr; simp at hr
  | some items =>
    rw [hs] at hr
    rcases List.mem_filterMap.mp hr with ⟨item, _, hv⟩
    exact validEntry_fields item r hv

theorem filterMap_validEntry_filter (items : List SearchItem) :
    (items.filter (fun it => (validEntry it).isSome)).filterMap validEntry
      = items.filterMap validEntry := by
  induction items with
  | nil => rfl
  | cons it items ih =>
    cases hv : validEntry it <;>
      simp [List.filter_cons, List.filterMap_cons, hv, ih]

theorem candidateResults_filter (search : String → Option (List SearchItem)) (qs : List String) :
    candidateResults (fun q => (search q).map (List.filter (fun it => (validEntry it).isSome))) qs
      = candidateResults search qs := by
  unfold candidateResults
  induction qs with
  | nil => rfl
  | cons q qs ih =>
    simp only [List.flatMap_cons, ih]
    cases hs : search q <;> simp [hs, filterMap_validEntry_filter]

theorem retrieve_info_eq_dedup (search : String → Option (List SearchItem)) (s : AgentState) :
    retrieve_info search s
      = dedupFirst [] (candidateResults search (splitSearchQueries ((s.research_plan).getD ""))) := by
  unfold retrieve_info
  rw [retrieveLoop_spec]
  simp

theorem retrieve_calls_eq (search : String → Option (List SearchItem)) (s : AgentState) :
    retrieve_calls search s = splitSearchQueries ((s.research_plan).getD "") := by
  unfold retrieve_calls
  rw [retrieveLoop_spec]
  simp

theorem dedupFirst_source_mem (l : List ResearchResult) :
    ∀ seen u, (∃ r ∈ dedupFirst seen l, r.source = u) ↔
      ((∃ r ∈ l, r.source = u) ∧ u ∉ seen) := by
  induction l with
  | nil => intro seen u; simp [dedupFirst]
  | cons x l ih =>
    intro seen u
    by_cases h : x.source ∈ seen
    · rw [show dedupFirst seen (x :: l) = dedupFirst seen l by simp [dedupFirst, h], ih]
      constructor
      · rintro ⟨⟨r, hr, hru⟩, hu⟩
        exact ⟨⟨r, List.mem_cons_of_mem x hr, hru⟩, hu⟩
      · rintro ⟨⟨r, hr, hru⟩, hu⟩
        rcases List.mem_cons.mp hr with rfl | hr
        · exact absurd (hru ▸ h) hu
        · exact ⟨⟨r, hr, hru⟩, hu⟩
    · rw [show dedupFirst seen (x :: l) = x :: dedupFirst (seen ++ [x.source]) l by
        simp [dedupFirst, h]]
      constructor
      · rintro ⟨r, hr, hru⟩
        rcases List.mem_cons.mp hr with rfl | hr
        · exact ⟨⟨r, List.mem_cons_self r l, hru⟩, hru ▸ h⟩
        · rcases (ih (seen ++ [x.source]) u).mp ⟨r, hr, hru⟩ with ⟨⟨r2, hr2, hru2⟩, hu⟩
          exact ⟨⟨r2, List.mem_cons_of_mem x hr2, hru2⟩, fun hin => hu (by simp [hin])⟩
      · rintro ⟨⟨r, hr, hru⟩, hu⟩
        by_cases hux : u = x.source
        · exact ⟨x, List.mem_cons_self x _, hux.symm⟩
        · rcases List.mem_cons.mp hr with rfl | hr
          · exact absurd hru.symm hux
          · rcases (ih (seen ++ [x.source]) u).mpr
              ⟨⟨r, hr, hru⟩, by simp [hu, hux]⟩ with ⟨r2, hr2, hru2⟩
            exact ⟨r2, List.mem_cons_of_mem x hr2, hru2⟩

theorem stripList_ne_nil_of_mem (l : List Char) (c : Char) (hc : c ∈ l)
    (hcs : isPySpace c = false) : stripList l ≠ [] := by
  unfold stripList
  intro h
  have h1 : (l.dropWhile isPySpace).reverse.dropWhile isPySpace = [] := by
    have := congrArg List.reverse h
    simpa using this
  have h2 := List.dropWhile_eq_nil_iff.mp h1
  have h3 : c ∈ l.dropWhile isPySpace := by
    have hsplit := List.takeWhile_append_dropWhile isPySpace l
    rw [← hsplit] at hc
    rcases List.mem_append.mp hc with h4 | h4
    · exact absurd (List.mem_takeWhile_imp h4) (by simp [hcs])
    · exact h4
  have := h2 c (by simpa using h3)
  simp [hcs] at this

theorem splitLines_ne_nil (l : List Char) : splitLines l ≠ [] := by
  induction l with
  | nil => simp [splitLines]
  | cons c rest ih =>
    by_cases hc : c = '\n'
    · simp [splitLines, hc]
    · simp only [splitLines]
      rw [if_neg hc]
      cases hsr : splitLines rest <;> simp

theorem scanPlanLines_of_lined :
    ∀ lines : List (List Char),
      (∀ line ∈ lines, ∃ q, specNumberedLine line = some q ∧ q ≠ "") →
      scanPlanLines false lines = lines.filterMap specNumberedLine := by
  intro lines
  induction lines with
  | nil => intro _; rfl
  | cons line rest ih =>
    intro h
    rcases h line (List.mem_cons_self line rest) with ⟨q, hq, hqne⟩
    have hrest := ih (fun l hl => h l (List.mem_cons_of_mem line hl))
    cases hds : (line.dropWhile isPySpace).takeWhile Char.isDigit with
    | nil =>
      simp only [specNumberedLine] at hq
      simp [hds] at hq
    | cons d dsr =>
      cases hdrop : (line.dropWhile isPySpace).dropWhile Char.isDigit with
      | nil =>
        simp only [specNumberedLine] at hq
        simp [hds, hdrop] at hq
      | cons c v =>
        by_cases hcdot : c = '.'
        · subst hcdot
          have hq2 : q = String.mk (v.dropWhile isPySpace) := by
            simp only [specNumberedLine] at hq
            simp [hds, hdrop] at hq
            exact hq.symm
          have hw : (v.dropWhile isPySpace).isEmpty = false := by
            cases hv : v.dropWhile isPySpace with
            | nil => exact absurd (hq2.trans (by rw [hv])) hqne
            | cons a b => simp
          simp only [scanPlanLines, hdrop, hds, List.filterMap_cons]
          simp [specNumberedLine, hds, hdrop, hw, hq2, hrest]
        · simp only [specNumberedLine] at hq
          simp [hds, hdrop, hcdot] at hq

theorem mem_S_formatEntry (r : ResearchResult) : 'S' ∈ (formatEntry r).data := by
  simp only [formatEntry, String.data_append, List.mem_append]
  left; left; left
  decide

theorem formatResults_cons_has_S (r : ResearchResult) (rs : List ResearchResult) :
    'S' ∈ (formatResults (r :: rs)).data := by
  cases rs with
  | nil => simpa [formatResults, joinSep] using mem_S_formatEntry r
  | cons y ys =>
    simp only [formatResults, List.map_cons, joinSep, String.data_append, List.mem_append]
    left; left
    exact mem_S_formatEntry r

theorem stripList_formatResults_cons (r : ResearchResult) (rs : List ResearchResult) :
    (stripList (formatResults (r :: rs)).data).isEmpty = false := by
  have := stripList_ne_nil_of_mem (formatResults (r :: rs)).data 'S'
    (formatResults_cons_has_S r rs) (by decide)
  simpa [List.isEmpty_iff] using this

/-! ## Claim theorems -/

/-- C2: the router is a pure function of state; when the query contains both
    the change token and the plan token under the case-insensitive substring
    check it routes to plan even if a summary exists; otherwise a present
    non-empty summary routes to follow_up; otherwise it routes to plan. -/
theorem router_routes_by_tokens_then_summary (s : AgentState) :
    (queryHasChangePlan ((s.query).getD "") = true →
      route_initial_or_follow_up s = Node.generate_research_plan)
  ∧ (queryHasChangePlan ((s.query).getD "") = false →
      ∀ t, s.summary = some t → t ≠ "" →
        route_initial_or_follow_up s = Node.answer_follow_up_question)
  ∧ (queryHasChangePlan ((s.query).getD "") = false →
      (s.summary = none ∨ s.summary = some "") →
        route_initial_or_follow_up s = Node.generate_research_plan) := by
  unfold route_initial_or_follow_up queryHasChangePlan
  refine ⟨fun h => by simp [h], fun h t ht hne => ?_, fun h hs => ?_⟩
  · simp [h, ht, pyTruthyStr, hne]
  · rcases hs with hs | hs <;> simp [h, hs, pyTruthyStr]

/-- C2 witness: a query carrying both tokens in mixed case routes to plan
    although a non-empty summary exists. -/
theorem router_routes_by_tokens_then_summary_witness :
    route_initial_or_follow_up
        { query := some "please CHANGE the PLAN", summary := some "prior summary" }
      = Node.generate_research_plan :=
  (router_routes_by_tokens_then_summary
    { query := some "please CHANGE the PLAN", summary := some "prior summary" }).1 (by decide)

/-- C6 counterexample: on the plan whose first numbered marker has only a
    blank before its newline, the program issues the single search call
    that the multiline regex captures, swallowing the second numbered line
    as text, while the line-local numbered-list reading of the claim yields
    two sub-queries. -/
theorem retrieve_split_crosses_lines_cex :
    retrieve_calls (fun _ => none) { research_plan := some "1. \n2. beta" }
      = ["2. beta"]
  ∧ specSplitByNumberedLines "1. \n2. beta" = ["", "beta"]
  ∧ (["2. beta"] : List String) ≠ ["", "beta"] := by
  refine ⟨by decide, by decide, by decide⟩

/-- C6 amended: retrieve sends one search call per sub-query in plan
    order; the sub-queries are the ordered captures of the one multiline
    numbered-item regex pass over the plan, or the whole plan text when
    the pattern nowhere matches; and on a plan whose every line is a
    numbered-list line carrying non-blank text, that pass coincides with
    the line-local split of the claim. -/
theorem retrieve_splits_plan (search : String → Option (List SearchItem))
    (s : AgentState) (plan : String) (h : s.research_plan = some plan) :
    retrieve_calls search s = splitSearchQueries plan
  ∧ (findallNumbered plan = [] → splitSearchQueries plan = [plan])
  ∧ (∀ qs, findallNumbered plan = qs → qs ≠ [] → splitSearchQueries plan = qs)
  ∧ ((∀ line ∈ splitLines plan.data, ∃ q, specNumberedLine line = some q ∧ q ≠ "") →
      splitSearchQueries plan = (splitLines plan.data).filterMap specNumberedLine) := by
  refine ⟨?_, fun hnil => ?_, fun qs hqs hne => ?_, fun hlines => ?_⟩
  · rw [retrieve_calls_eq, h, Option.getD_some]
  · simp [splitSearchQueries, hnil]
  · simp [splitSearchQueries, hqs, hne]
  · have hscan := scanPlanLines_of_lined (splitLines plan.data) hlines
    have hne : (splitLines plan.data).filterMap specNumberedLine ≠ [] := by
      cases hl : splitLines plan.data with
      | nil => exact absurd hl (splitLines_ne_nil plan.data)
      | cons line rest =>
        rcases hlines line (hl ▸ List.mem_cons_self line rest) with ⟨q, hq, _⟩
        simp [List.filterMap_cons, hq]
    simp only [splitSearchQueries, findallNumbered, hscan]
    simp [hne]

/-- C6 amended witness: a two-line numbered plan produces exactly the two
    captured sub-queries as the issued search calls, in order. -/
theorem retrieve_splits_plan_witness :
    retrieve_calls (fun _ => none) { research_plan := some "1. alpha\n2. beta" }
      = ["alpha", "beta"] := by
  rw [(retrieve_splits_plan (fun _ => none)
    { research_plan := some "1. alpha\n2. beta" } "1. alpha\n2. beta" rfl).1]
  decide

/-- C7: one retrieval pass produces no two entries with the same source,
    and equals the first-seen deduplication of the valid candidate stream,
    which loses no source that any sub-query returned. -/
theorem retrieve_results_unique_by_source (search : String → Option (List SearchItem))
    (s : AgentState) :
    ((retrieve_info search s).map (fun r => r.source)).Nodup
  ∧ retrieve_info search s
      = dedupFirst [] (candidateResults search (splitSearchQueries ((s.research_plan).getD "")))
  ∧ (∀ u, (∃ r ∈ retrieve_info search s, r.source = u) ↔
      (∃ r ∈ candidateResults search (splitSearchQueries ((s.research_plan).getD "")),
        r.source = u)) := by
  refine ⟨?_, retrieve_info_eq_dedup search s, fun u => ?_⟩
  · rw [retrieve_info_eq_dedup]
    exact (dedupFirst_sources_fresh_nodup _ []).2
  · rw [retrieve_info_eq_dedup, dedupFirst_source_mem]
    simp

/-- C7 witness: the same source returned by two sub-queries is stored once,
    with the content of its first occurrence. -/
theorem retrieve_results_unique_by_source_witness :
    retrieve_info
        (fun q => if q = "a" then some [⟨some "u1", some "first", none⟩]
          else some [⟨some "u1", some "second", none⟩, ⟨some "u2", some "x", none⟩])
        { research_plan := some "1. a\n2. b" }
      = [⟨"u1", "first"⟩, ⟨"u2", "x"⟩] := by
  rw [(retrieve_results_unique_by_source
    (fun q => if q = "a" then some [⟨some "u1", some "first", none⟩]
      else some [⟨some "u1", some "second", none⟩, ⟨some "u2", some "x", none⟩])
    { research_plan := some "1. a\n2. b" }).2.1]
  decide

/-- C8: with empty accumulated results the summarize step returns the fixed
    no-results message and does not consult the LLM collaborator. -/
theorem summarize_short_circuits (llm : String → String → String)
    (s : AgentState) (q : String) (hq : s.query = some q)
    (hraw : (s.raw_research_results).getD [] = []) :
    summarize_info llm s
      = some ("No substantial research results were found to summarize.", false) := by
  unfold summarize_info
  rw [hq, hraw]
  simp [formatResults, joinSep, stripList]

/-- C8 witness: the short circuit on a fresh empty result list. -/
theorem summarize_short_circuits_witness :
    summarize_info (fun _ _ => "llm text")
        { query := some "q", raw_research_results := some [] }
      = some ("No substantial research results were found to summarize.", false) :=
  summarize_short_circuits (fun _ _ => "llm text")
    { query := some "q", raw_research_results := some [] } "q" rfl rfl

/-- C9: every stored entry has a non-empty source and non-empty content,
    and search items lacking a url or an effective content are dropped: the
    output is unchanged when they are filtered out of every response. -/
theorem retrieve_entries_valid (search : String → Option (List SearchItem))
    (s : AgentState) :
    (∀ r ∈ retrieve_info search s, r.source ≠ "" ∧ r.content ≠ "")
  ∧ retrieve_info (fun q => (search q).map (List.filter (fun it => (validEntry it).isSome))) s
      = retrieve_info search s := by
  constructor
  · intro r hr
    rw [retrieve_info_eq_dedup] at hr
    exact mem_candidateResults_fields _ _ r (mem_of_mem_dedupFirst _ [] r hr)
  · rw [retrieve_info_eq_dedup, retrieve_info_eq_dedup, candidateResults_filter]

/-- C9 witness: a stored entry of a concrete run has non-empty fields. -/
theorem retrieve_entries_valid_witness :
    (ResearchResult.mk "http://a" "text").source ≠ ""
  ∧ (ResearchResult.mk "http://a" "text").content ≠ "" :=
  (retrieve_entries_valid
    (fun _ => some [⟨some "http://a", some "text", none⟩, ⟨none, some "x", none⟩,
      ⟨some "", some "y", none⟩, ⟨some "http://b", none, some ""⟩])
    { research_plan := some "plan" }).1
    (ResearchResult.mk "http://a" "text") (by decide)

/-- C1 (code bug): the initial state submitted for a fresh conversation
    leaves original_query unset, no node delta can ever assign it, and the
    plan step, which reads it by subscript, raises on every fresh
    conversation instead of reading the query that started it. -/
theorem original_query_never_assigned (planLLM : String → String) (tid q : String)
    (st : AgentState) (d : Delta) :
    (initialInputState tid q).original_query = none
  ∧ generate_research_plan planLLM (initialInputState tid q) = none
  ∧ (applyDelta st d).original_query = st.original_query :=
  ⟨rfl, rfl, rfl⟩

/-- C3 counterexample: thread T1 has no pending interrupt, yet the continue
    endpoint resumes and overwrites the persisted plan, instead of failing
    with a NotSuspended error and leaving the state untouched. -/
theorem chat_continue_not_suspended_cex :
    noResumeStore "T1"
      = some { state := { summary := some "done", research_plan := some "old plan" }
               pendingNode := none }
  ∧ chat_continue_endpoint noResumeStore (some "T1") (some "NEW PLAN")
      = ContinueOutcome.resumed (update_state noResumeStore "T1" "NEW PLAN")
  ∧ update_state noResumeStore "T1" "NEW PLAN" "T1"
      = some { state := { summary := some "done", research_plan := some "NEW PLAN" }
               pendingNode := none }
  ∧ "NEW PLAN" ≠ "old plan" := by
  refine ⟨rfl, rfl, rfl, by decide⟩

/-- C3 amended: for every store, thread id and plan that pass the 400
    check, the continue endpoint unconditionally overwrites the persisted
    research_plan and resumes; no pending-interrupt condition is consulted
    and no NotSuspended failure exists. -/
theorem chat_continue_overwrites_unconditionally
    (store : String → Option Checkpoint) (tid plan : String) (cp : Checkpoint)
    (htid : tid ≠ "") (hplan : plan ≠ "") (hcp : store tid = some cp) :
    chat_continue_endpoint store (some tid) (some plan)
      = ContinueOutcome.resumed (update_state store tid plan)
  ∧ update_state store tid plan tid
      = some { cp with state := { cp.state with research_plan := some plan } } := by
  constructor
  · unfold chat_continue_endpoint
    simp [htid, hplan]
  · unfold update_state
    simp [hcp]

/-- C3 amended witness: the overwrite happens on the concrete store whose
    thread T1 has no pending interrupt. -/
theorem chat_continue_overwrites_unconditionally_witness :
    update_state noResumeStore "T1" "NEW PLAN" "T1"
      = some { state := { summary := some "done", research_plan := some "NEW PLAN" }
               pendingNode := none } :=
  (chat_continue_overwrites_unconditionally noResumeStore "T1" "NEW PLAN"
    { state := { summary := some "done", research_plan := some "old plan" }
      pendingNode := none }
    (by decide) (by decide) rfl).2

/-- C4: resuming a persisted conversation with an edited plan overwrites
    the stored research_plan before execution proceeds, so retrieve splits
    and searches the edited plan, and the original plan is gone whenever it
    differed. -/
theorem resume_retrieves_edited_plan (store : String → Option Checkpoint)
    (search : String → Option (List SearchItem))
    (tid oldPlan newPlan : String) (cp : Checkpoint)
    (hcp : store tid = some cp) (hold : cp.state.research_plan = some oldPlan)
    (htid : tid ≠ "") (hplan : newPlan ≠ "") :
    chat_continue_endpoint store (some tid) (some newPlan)
      = ContinueOutcome.resumed (update_state store tid newPlan)
  ∧ ∃ cp2, update_state store tid newPlan tid = some cp2
      ∧ cp2.state.research_plan = some newPlan
      ∧ retrieve_calls search cp2.state = splitSearchQueries newPlan
      ∧ (oldPlan ≠ newPlan → cp2.state.research_plan ≠ some oldPlan) := by
  refine ⟨?_, { cp with state := { cp.state with research_plan := some newPlan } },
    ?_, rfl, ?_, ?_⟩
  · unfold chat_continue_endpoint
    simp [htid, hplan]
  · unfold update_state
    simp [hcp]
  · rw [retrieve_calls_eq]
    rfl
  · intro hne heq
    exact hne (Option.some.inj heq).symm

/-- C4 witness: resuming T1 with an edited numbered plan is accepted and
    overwrites the old plan. -/
theorem resume_retrieves_edited_plan_witness :
    chat_continue_endpoint noResumeStore (some "T1") (some "1. edited topic")
      = ContinueOutcome.resumed (update_state noResumeStore "T1" "1. edited topic") :=
  (resume_retrieves_edited_plan noResumeStore (fun _ => none) "T1" "old plan"
    "1. edited topic"
    { state := { summary := some "done", research_plan := some "old plan" }
      pendingNode := none }
    rfl rfl (by decide) (by decide)).1

/-- C5 counterexample: on a fresh turn the router chooses plan, yet the
    run errors inside the plan step (original_query is never initialized),
    so the turn ends with an error event, never reaching the interrupt
    boundary and never emitting the awaiting-approval event. -/
theorem interrupt_claim_cex :
    route_initial_or_follow_up (initialInputState "T" "Impact of microplastics on marine life")
      = Node.generate_research_plan
  ∧ runChain trivialOracles Node.generate_research_plan
      (initialInputState "T" "Impact of microplastics on marine life")
      = RunResult.errored []
  ∧ chat_endpoint_events trivialOracles noStream "T"
      (initialInputState "T" "Impact of microplastics on marine life")
      = [Event.thread_id "T", Event.error] := by
  have hroute : route_initial_or_follow_up
      (initialInputState "T" "Impact of microplastics on marine life")
      = Node.generate_research_plan := by decide
  have hrun : runChain trivialOracles Node.generate_research_plan
      (initialInputState "T" "Impact of microplastics on marine life")
      = RunResult.errored [] := by
    rw [runChain]
    simp [runStep, generate_research_plan, initialInputState, trivialOracles]
  refine ⟨hroute, hrun, ?_⟩
  unfold chat_endpoint_events
  rw [hroute, hrun]
  simp [emitChatOutputs]

/-- C5 amended: on every turn whose router decision is plan, if the state
    carries an original_query and the planning oracle answers a non-empty
    plan, the run halts at the interrupt boundary before retrieve with the
    completed plan merged into the persisted snapshot, and the
    awaiting-approval event carrying that plan is the last event of the
    turn. -/
theorem interrupt_before_retrieve (o : Oracles) (stream : FinalInputs → List String)
    (tid : String) (s0 : AgentState) (oq p : String)
    (hroute : route_initial_or_follow_up s0 = Node.generate_research_plan)
    (hq : s0.original_query = some oq) (hp : o.planLLM oq = p) (hne : p ≠ "") :
    runChain o (route_initial_or_follow_up s0) s0
      = RunResult.interrupted (applyDelta s0 { research_plan := some p })
          [(Node.generate_research_plan, { research_plan := some p })] Node.retrieve_info
  ∧ (applyDelta s0 { research_plan := some p }).research_plan = some p
  ∧ chat_endpoint_events o stream tid s0
      = [Event.thread_id tid, Event.research_plan p] := by
  have hrun : runChain o Node.generate_research_plan s0
      = RunResult.interrupted (applyDelta s0 { research_plan := some p })
          [(Node.generate_research_plan, { research_plan := some p })] Node.retrieve_info := by
    rw [runChain]
    simp [runStep, generate_research_plan, hq, hp, nextNode, interruptBefore]
  refine ⟨hroute ▸ hrun, rfl, ?_⟩
  unfold chat_endpoint_events
  rw [hroute, hrun]
  simp [emitChatOutputs, planEventOf, hne]

/-- C5 amended witness: a state with original_query present halts at the
    interrupt with the awaiting-approval event last. -/
theorem interrupt_before_retrieve_witness :
    chat_endpoint_events trivialOracles noStream "T"
        { query := some "quantum computing hardware"
          original_query := some "quantum computing hardware" }
      = [Event.thread_id "T", Event.research_plan "1. step one"] :=
  (interrupt_before_retrieve trivialOracles noStream "T"
    { query := some "quantum computing hardware"
      original_query := some "quantum computing hardware" }
    "quantum computing hardware" "1. step one" (by decide) rfl rfl (by decide)).2.2

/-- C10 counterexample: a state whose summary and fact_check_results keys
    are present but empty flows the empty strings into the render inputs;
    the fixed fallback strings are not substituted. -/
theorem follow_up_empty_present_cex :
    ({ query := some "and what about costs", summary := some ""
       fact_check_results := some "", raw_research_results := some [] } : AgentState).summary
      = some ""
  ∧ (answer_follow_up_question
      { query := some "and what about costs", summary := some ""
        fact_check_results := some "", raw_research_results := some [] }).summary = ""
  ∧ "" ≠ "No previous summary available."
  ∧ (answer_follow_up_question
      { query := some "and what about costs", summary := some ""
        fact_check_results := some "", raw_research_results := some [] }).fact_check_results = ""
  ∧ "" ≠ "No fact-check was performed." := by
  exact ⟨rfl, rfl, by decide, rfl, by decide⟩

/-- C10 amended: follow_up is total in the state; summary and
    fact_check_results fall back to their fixed strings exactly when the
    key is absent (a present empty value is passed through), while the
    sources input falls back exactly when the accumulated results are
    absent or empty. -/
theorem follow_up_total_defaults (s : AgentState) :
    ((s.summary = none →
        (answer_follow_up_question s).summary = "No previous summary available.")
   ∧ (∀ t, s.summary = some t → (answer_follow_up_question s).summary = t))
  ∧ ((s.fact_check_results = none →
        (answer_follow_up_question s).fact_check_results = "No fact-check was performed.")
   ∧ (∀ t, s.fact_check_results = some t →
        (answer_follow_up_question s).fact_check_results = t))
  ∧ (((s.raw_research_results).getD [] = [] →
        (answer_follow_up_question s).formatted_results = "No sources were retrieved.")
   ∧ (∀ r rs, (s.raw_research_results).getD [] = r :: rs →
        (answer_follow_up_question s).formatted_results = formatResults (r :: rs)))
  ∧ (answer_follow_up_question s).follow_up_query = (s.query).getD "" := by
  unfold answer_follow_up_question
  refine ⟨⟨fun h => by simp [h], fun t ht => by simp [ht]⟩,
          ⟨fun h => by simp [h], fun t ht => by simp [ht]⟩,
          ⟨fun h => by simp [h, formatResults, joinSep, stripList],
           fun r rs h => by simp [h, stripList_formatResults_cons]⟩,
          rfl⟩

/-- C10 amended witness: an absent summary key takes the fallback while the
    present empty raw results take the sources fallback. -/
theorem follow_up_total_defaults_witness :
    (answer_follow_up_question
        { query := some "next question", raw_research_results := some [] }).summary
      = "No previous summary available." :=
  (follow_up_total_defaults
    { query := some "next question", raw_research_results := some [] }).1.1 rfl

end MrResearch
